import Mathlib

/-!
# ViroRenderer: frame lifecycle, scene transitions, FPS tracker and sort-key rendering

A shallow embedding of `VRORenderer.cpp` and `VROScene.cpp`.

* Shared pointers to scene controllers are modelled by `Option Ctrl`, where a
  `Ctrl` is the identity of the pointed-to controller and `none` is `nullptr`.
* Every call the renderer makes on a collaborator (scene controller, scene,
  delegate, input controller, driver, frame synchronizer, transaction engine)
  is recorded as an `Event`; a member function returns the events it issued, in
  call order, together with the new renderer state.
* A member function that dereferences a null pointer or fails `passert`
  returns `none`.
* `uint64_t` values are natural numbers, reduced modulo `2 ^ 64` by the
  arithmetic that can wrap.
* `double` values are rationals rounded to 53 significant bits (round to nearest,
  ties to even), with `+inf` and NaN for division by zero.
* `VROVector3f` values have real components; the vector operations, which are not
  part of the sources, are modelled from the specification.
-/

namespace VRO

/-! ## FPS tracker (`updateFPS`, `getFPS`) -/

/-- Modulus of `uint64_t` arithmetic. -/
def u64 : Nat := 18446744073709551616

/-- Wrapping `uint64_t` subtraction `a - b`. -/
def sub64 (a b : Nat) : Nat := (a + u64 - b % u64) % u64

/-- Wrapping `uint64_t` addition `a + b`. -/
def add64 (a b : Nat) : Nat := (a + b) % u64

/-- The three FPS members of `VRORenderer`: `_fpsTickArray`, `_fpsTickIndex`
and `_fpsTickSum`. -/
structure FPSTracker where
  fpsTickArray : List Nat
  fpsTickIndex : Nat
  fpsTickSum : Nat
deriving DecidableEq, Repr

/-- State left by the constructor: index and sum are `0`, and `memset` zeroes the
`kFPSMaxSamples` slots of the array. -/
def FPSTracker.construct (kFPSMaxSamples : Nat) : FPSTracker :=
  { fpsTickArray := List.replicate kFPSMaxSamples 0
    fpsTickIndex := 0
    fpsTickSum := 0 }

/-- `VRORenderer::updateFPS`. The constant `kFPSMaxSamples` is declared in a
header that is not part of the sources and is taken as a parameter. -/
def updateFPS (kFPSMaxSamples : Nat) (t : FPSTracker) (newTick : Nat) : FPSTracker :=
  let sum1 := sub64 t.fpsTickSum (t.fpsTickArray.getD t.fpsTickIndex 0)
  let sum2 := add64 sum1 newTick
  let arr := t.fpsTickArray.set t.fpsTickIndex newTick
  let idx := t.fpsTickIndex + 1
  { fpsTickArray := arr
    fpsTickIndex := if idx = kFPSMaxSamples then 0 else idx
    fpsTickSum := sum2 }

/-! ### Double-precision arithmetic of `getFPS` -/

/-- The integer nearest to `x`; a tie goes to the even neighbour (the IEEE-754
default rounding direction). -/
def roundNearestEven (x : ℚ) : ℤ :=
  if x - ⌊x⌋ < 1 / 2 then ⌊x⌋
  else if 1 / 2 < x - ⌊x⌋ then ⌊x⌋ + 1
  else if ⌊x⌋ % 2 = 0 then ⌊x⌋ else ⌊x⌋ + 1

/-- The binary64 (`double`) value nearest to a non-negative rational `q`: for
`2^e ≤ q < 2^(e+1)` the result is the multiple of `2^(e-52)` nearest to `q`, ties
to even. `getFPS` only handles non-negative values. The exponent range of
binary64 is not bounded here; every value `getFPS` computes from a 64-bit sum and
an `int` sample count lies between `2^-61` and `2^64`, far inside it. -/
def roundDouble (q : ℚ) : ℚ :=
  if q ≤ 0 then 0
  else (roundNearestEven (q / (2 : ℚ) ^ (Int.log 2 q - 52)) : ℚ) * (2 : ℚ) ^ (Int.log 2 q - 52)

/-- The `double` values `getFPS` can produce: a non-negative finite value,
`+inf` or NaN. -/
inductive Double
  | finite (q : ℚ)
  | inf
  | nan
deriving DecidableEq, Repr

/-- The conversion `(double) n` of an unsigned integer. -/
def Double.ofNat (n : Nat) : Double := Double.finite (roundDouble (n : ℚ))

/-- Division of non-negative `double` values: the exact quotient rounded to
nearest; `x / 0` is `+inf` for `x > 0` and NaN for `x = 0`. -/
def Double.div : Double → Double → Double
  | .finite a, .finite b =>
    if b = 0 then (if a = 0 then Double.nan else Double.inf)
    else Double.finite (roundDouble (a / b))
  | .finite _, .inf => Double.finite 0
  | .inf, .finite _ => Double.inf
  | _, _ => Double.nan

/-- The local `averageNanos` of `getFPS`:
`((double) _fpsTickSum) / kFPSMaxSamples`. -/
def averageNanos (kFPSMaxSamples : Nat) (t : FPSTracker) : Double :=
  Double.div (Double.ofNat t.fpsTickSum) (Double.ofNat kFPSMaxSamples)

/-- `VRORenderer::getFPS`: `1.0 / (averageNanos / (double) 1e9)`. -/
def getFPS (kFPSMaxSamples : Nat) (t : FPSTracker) : Double :=
  Double.div (Double.finite 1)
    (Double.div (averageNanos kFPSMaxSamples t) (Double.finite 1000000000))

/-- The tracker after `k` consecutive calls `updateFPS(d)`. -/
def updateFPSTimes (kFPSMaxSamples : Nat) (t : FPSTracker) (d : Nat) : Nat → FPSTracker
  | 0 => t
  | k + 1 => updateFPS kFPSMaxSamples (updateFPSTimes kFPSMaxSamples t d k) d

/-- Tracker states reachable from construction by `updateFPS` calls with
`uint64_t` arguments. -/
inductive FPSReachable (kFPSMaxSamples : Nat) : FPSTracker → Prop
  | construct : FPSReachable kFPSMaxSamples (FPSTracker.construct kFPSMaxSamples)
  | update {t : FPSTracker} (tick : Nat) :
      FPSReachable kFPSMaxSamples t → tick < u64 →
      FPSReachable kFPSMaxSamples (updateFPS kFPSMaxSamples t tick)

/-- Representation invariant of the tracker. -/
structure FPSInv (N : Nat) (t : FPSTracker) : Prop where
  length_eq : t.fpsTickArray.length = N
  index_lt : t.fpsTickIndex < N
  entries_lt : ∀ x ∈ t.fpsTickArray, x < u64
  sum_eq : t.fpsTickSum = t.fpsTickArray.sum % u64

/-! ## Renderer state, collaborators and events -/

/-- Identity of a `VROSceneController` object (the address a `shared_ptr` holds). -/
abbrev Ctrl := Nat

/-- The `seconds` and `timingFunctionType` arguments of the timed scene change.
The renderer only forwards them to the two controllers. -/
structure Transition where
  seconds : ℚ
  timingFunctionType : Nat
deriving DecidableEq, Repr

/-- Calls the renderer makes on its collaborators. A controller argument names
the controller the call is made on; for `updateSortKeys`, `renderBackground`,
`render` and `attachScene` it names the controller whose `getScene()` is used. -/
inductive Event
  | setupRendererWithDriver
  | willRenderEye (eye : Nat)
  | didRenderEye (eye : Nat)
  | beginImplicitAnimation
  | transactionUpdate
  | commitAll
  | notifyFrameStart
  | notifyFrameEnd
  | attachScene (c : Ctrl)
  | onProcess
  | onFrame
  | updateSortKeys (c : Ctrl)
  | sceneWillRender (c : Ctrl)
  | renderBackground (c : Ctrl)
  | render (c : Ctrl)
  | reticleRenderEye (eye : Nat)
  | onSceneWillAppear (c : Ctrl)
  | onSceneDidAppear (c : Ctrl)
  | onSceneWillDisappear (c : Ctrl)
  | onSceneDidDisappear (c : Ctrl)
  | startIncomingTransition (c : Ctrl) (t : Transition)
  | startOutgoingTransition (c : Ctrl) (t : Transition)
deriving DecidableEq, Repr

/-- The four appear/disappear notifications of a scene controller. -/
def Event.isAppearance : Event → Bool
  | .onSceneWillAppear _ => true
  | .onSceneDidAppear _ => true
  | .onSceneWillDisappear _ => true
  | .onSceneDidDisappear _ => true
  | _ => false

/-- The render calls that are handed the driver: the two scene passes and the
reticle. -/
def Event.isDraw : Event → Bool
  | .renderBackground _ => true
  | .render _ => true
  | .reticleRenderEye _ => true
  | _ => false

/-- The render calls made on a scene. -/
def Event.isSceneDraw : Event → Bool
  | .renderBackground _ => true
  | .render _ => true
  | _ => false

/-- What the collaborators answer during one call of a renderer member function. -/
structure World where
  /-- The value of `VRONanoTime()`. -/
  nanoTime : Nat
  /-- Whether `_delegate.lock()` yields a delegate. -/
  delegate : Bool
  /-- Whether `_inputController->getPresenter()->getReticle()` is non-null. -/
  reticle : Bool
  /-- The answer of `hasActiveTransitionAnimation()` of each controller. -/
  hasActiveTransitionAnimation : Ctrl → Bool

/-- The members of `VRORenderer` that the modelled functions read or write. The
render context is represented by its frame number; its camera and matrices are
floating-point data that no modelled branch depends on. -/
structure Renderer where
  rendererInitialized : Bool
  nanosecondsLastFrame : Nat
  fps : FPSTracker
  frame : Int
  sceneController : Option Ctrl
  outgoingSceneController : Option Ctrl
deriving DecidableEq, Repr

/-- State left by the constructor `VRORenderer::VRORenderer`. -/
def Renderer.construct (kFPSMaxSamples : Nat) : Renderer :=
  { rendererInitialized := false
    nanosecondsLastFrame := 0
    fps := FPSTracker.construct kFPSMaxSamples
    frame := 0
    sceneController := none
    outgoingSceneController := none }

/-! ## Renderer member functions -/

/-- The scene part of `VRORenderer::prepareFrame` (the `if (_sceneController)`
block before `driver->onFrame`). -/
def prepareFrameScenes (r : Renderer) : List Event :=
  match r.sceneController with
  | none => []
  | some c =>
    (match r.outgoingSceneController with
      | some o => [Event.updateSortKeys o, Event.updateSortKeys c]
      | none => [Event.updateSortKeys c]) ++ [Event.onProcess]

/-- `VRORenderer::prepareFrame`. -/
def prepareFrame (kFPSMaxSamples : Nat) (w : World) (frame : Int) (r : Renderer) :
    Renderer × List Event :=
  let first : Renderer × List Event :=
    if r.rendererInitialized = false then
      ({ r with rendererInitialized := true, nanosecondsLastFrame := w.nanoTime },
        if w.delegate then [Event.setupRendererWithDriver] else [])
    else
      let tick := sub64 w.nanoTime r.nanosecondsLastFrame
      ({ r with nanosecondsLastFrame := w.nanoTime
                fps := updateFPS kFPSMaxSamples r.fps tick }, [])
  ({ first.1 with frame := frame },
    first.2 ++ [Event.beginImplicitAnimation, Event.transactionUpdate, Event.notifyFrameStart]
      ++ prepareFrameScenes r ++ [Event.onFrame])

/-- `VRORenderer::renderEye(VROEyeType, driver)`, the two-argument overload that
draws the scenes. -/
def renderEyeScenes (w : World) (r : Renderer) : List Event :=
  match r.sceneController with
  | none => []
  | some c =>
    match r.outgoingSceneController with
    | some o =>
      if w.hasActiveTransitionAnimation o then
        [Event.sceneWillRender o, Event.sceneWillRender c,
         Event.renderBackground o, Event.renderBackground c,
         Event.render o, Event.render c]
      else
        [Event.sceneWillRender c, Event.renderBackground c, Event.render c]
    | none => [Event.sceneWillRender c, Event.renderBackground c, Event.render c]

/-- `VRORenderer::renderEye(eye, eyeFromHeadMatrix, projectionMatrix, driver)`. -/
def renderEye (w : World) (eye : Nat) (r : Renderer) : Renderer × List Event :=
  (r,
    (if w.delegate then [Event.willRenderEye eye] else [])
      ++ renderEyeScenes w r
      ++ (if w.reticle then [Event.reticleRenderEye eye] else [])
      ++ (if w.delegate then [Event.didRenderEye eye] else []))

/-- `VRORenderer::endFrame`. The call `_sceneController->onSceneDidAppear` is not
guarded, so the settle branch fails when there is no active controller. -/
def endFrame (w : World) (r : Renderer) : Option (Renderer × List Event) :=
  match r.outgoingSceneController with
  | some o =>
    if w.hasActiveTransitionAnimation o = false then
      match r.sceneController with
      | none => none
      | some c =>
        some ({ r with outgoingSceneController := none },
          [Event.onSceneDidAppear c, Event.onSceneDidDisappear o,
           Event.notifyFrameEnd, Event.commitAll])
    else
      some (r, [Event.notifyFrameEnd, Event.commitAll])
  | none => some (r, [Event.notifyFrameEnd, Event.commitAll])

/-- `VRORenderer::setSceneController(sceneController, driver)`, the immediate
change. A null argument is dereferenced by `sceneController->getScene()`. -/
def setSceneController (sceneController : Option Ctrl) (r : Renderer) :
    Option (Renderer × List Event) :=
  match sceneController with
  | none => none
  | some c =>
    let outgoingSceneController := r.sceneController
    some ({ r with sceneController := some c },
      [Event.attachScene c, Event.onSceneWillAppear c]
        ++ (match outgoingSceneController with
            | some o => [Event.onSceneWillDisappear o]
            | none => [])
        ++ [Event.onSceneDidAppear c]
        ++ (match outgoingSceneController with
            | some o => [Event.onSceneDidDisappear o]
            | none => []))

/-- `VRORenderer::setSceneController(sceneController, seconds, timingFunctionType,
driver)`, the timed change. A null argument fails the `passert`. -/
def setSceneControllerTimed (sceneController : Option Ctrl) (t : Transition)
    (r : Renderer) : Option (Renderer × List Event) :=
  match sceneController with
  | none => none
  | some c =>
    let outgoing := r.sceneController
    some ({ r with outgoingSceneController := outgoing, sceneController := some c },
      [Event.attachScene c, Event.onSceneWillAppear c]
        ++ (match outgoing with
            | some o => [Event.onSceneWillDisappear o]
            | none => [])
        ++ [Event.startIncomingTransition c t]
        ++ (match outgoing with
            | some o => [Event.startOutgoingTransition o t]
            | none => []))

/-! ## Call sequences -/

/-- One call of a public member function of the renderer. -/
inductive Call
  | setSceneController (sceneController : Option Ctrl)
  | setSceneControllerTimed (sceneController : Option Ctrl) (t : Transition)
  | prepareFrame (frame : Int)
  | renderEye (eye : Nat)
  | endFrame
deriving DecidableEq, Repr

/-- The calls of the per-frame lifecycle, which are not scene changes. -/
def Call.isFrameCall : Call → Bool
  | .prepareFrame _ => true
  | .renderEye _ => true
  | .endFrame => true
  | _ => false

/-- Executes one call in world `w`. -/
def step (kFPSMaxSamples : Nat) (w : World) (c : Call) (r : Renderer) :
    Option (Renderer × List Event) :=
  match c with
  | .setSceneController sc => setSceneController sc r
  | .setSceneControllerTimed sc t => setSceneControllerTimed sc t r
  | .prepareFrame frame => some (prepareFrame kFPSMaxSamples w frame r)
  | .renderEye eye => some (renderEye w eye r)
  | .endFrame => endFrame w r

/-- Executes a sequence of calls, each in its own world, and concatenates the
events; fails as soon as one call fails. -/
def run (kFPSMaxSamples : Nat) : List (World × Call) → Renderer →
    Option (Renderer × List Event)
  | [], r => some (r, [])
  | (w, c) :: rest, r =>
    match step kFPSMaxSamples w c r with
    | none => none
    | some (r1, evs1) =>
      match run kFPSMaxSamples rest r1 with
      | none => none
      | some (r2, evs2) => some (r2, evs1 ++ evs2)

/-- Renderer states reachable from construction by successful calls, each call
satisfying the side condition `P` in the state it is made in. -/
inductive ReachableVia (kFPSMaxSamples : Nat) (P : Renderer → Call → Prop) :
    Renderer → Prop
  | construct : ReachableVia kFPSMaxSamples P (Renderer.construct kFPSMaxSamples)
  | call {r r1 : Renderer} {evs : List Event} (w : World) (c : Call) :
      ReachableVia kFPSMaxSamples P r → P r c →
      step kFPSMaxSamples w c r = some (r1, evs) →
      ReachableVia kFPSMaxSamples P r1

/-- Renderer states reachable from construction by any successful calls. -/
def Reachable (kFPSMaxSamples : Nat) : Renderer → Prop :=
  ReachableVia kFPSMaxSamples (fun _ _ => True)

/-- Side condition on a scene change: a timed change is not given the currently
active controller, and an immediate change is not given the current outgoing
controller. -/
def Call.changesController (r : Renderer) : Call → Prop
  | .setSceneControllerTimed (some c) _ => r.sceneController ≠ some c
  | .setSceneController (some c) => r.outgoingSceneController ≠ some c
  | _ => True

/-! ## Scene: sort keys and the sorted render pass -/

/-- The fields of `VROSortKey` that `VROScene::render2` reads: the node the key
belongs to, the geometry element index and the shader identity (`uint32_t`). -/
structure VROSortKey where
  node : Nat
  elementIndex : Int
  shader : Nat
deriving DecidableEq, Repr

/-- A root node as `VROScene` sees it: its identity and the keys that
`getSortKeys` hands out after `updateSortKeys(renderParams)`. -/
structure VRONode where
  id : Nat
  sortKeys : List VROSortKey
deriving DecidableEq, Repr

/-- Modelled from the spec: `VRONode::getSortKeys(&keys)` is not part of the
sources; each node contributes zero or more keys, which are added at the end of
the vector it is given. -/
def VRONode.getSortKeys (n : VRONode) (outKeys : List VROSortKey) : List VROSortKey :=
  outKeys ++ n.sortKeys

/-- The members `_nodes` and `_keys` of `VROScene`. -/
structure VROScene where
  nodes : List VRONode
  keys : List VROSortKey
deriving DecidableEq, Repr

/-- `VROScene::updateSortKeys`: clear `_keys`, then let every root node add its
keys, in `_nodes` order. -/
def VROScene.updateSortKeys (s : VROScene) : VROScene :=
  { s with keys := s.nodes.foldl (fun keys n => n.getSortKeys keys) [] }

/-- The grouping property: between two positions holding keys of equal shader
identity, every key has that shader identity. -/
def GroupedByShader (keys : List VROSortKey) : Prop :=
  ∀ i j k : Nat, i < j → j < k → ∀ hk : k < keys.length,
    ∀ hi : i < keys.length, ∀ hj : j < keys.length,
      (keys.get ⟨i, hi⟩).shader = (keys.get ⟨k, hk⟩).shader →
      (keys.get ⟨j, hj⟩).shader = (keys.get ⟨i, hi⟩).shader

/-- Calls made by `VROScene::render2`. -/
inductive SceneEvent
  | bindShader (node : Nat) (elementIndex : Int)
  | render2 (node : Nat) (elementIndex : Int)
deriving DecidableEq, Repr

/-- The loop of `VROScene::render2` with `boundShaderId` as loop state; the result
lists, per iteration, the calls that iteration makes. `hasGeometry` tells whether
`node->getGeometry()` is non-null. -/
def render2Iterations (hasGeometry : Nat → Bool) :
    Nat → List VROSortKey → List (List SceneEvent)
  | _, [] => []
  | boundShaderId, key :: rest =>
    if key.shader ≠ boundShaderId then
      ((if hasGeometry key.node then [SceneEvent.bindShader key.node key.elementIndex]
          else [])
        ++ [SceneEvent.render2 key.node key.elementIndex])
        :: render2Iterations hasGeometry key.shader rest
    else
      [SceneEvent.render2 key.node key.elementIndex]
        :: render2Iterations hasGeometry boundShaderId rest

/-- `VROScene::render2`: all calls, in order, starting with `boundShaderId = 0`. -/
def VROScene.render2 (hasGeometry : Nat → Bool) (s : VROScene) : List SceneEvent :=
  (render2Iterations hasGeometry 0 s.keys).flatten

/-- The element a `render2` call draws, if the call is a draw. -/
def SceneEvent.drawn : SceneEvent → Option (Nat × Int)
  | .render2 node elementIndex => some (node, elementIndex)
  | .bindShader _ _ => none

/-- Whether a call binds shader and material state. -/
def SceneEvent.isBind : SceneEvent → Bool
  | .bindShader _ _ => true
  | .render2 _ _ => false

/-! ## Camera: the Orbit branch of `prepareFrame` -/

/-- A `VROVector3f`. Its components are real numbers: the rounding of the 32-bit
float operations is not modelled. -/
abbrev VROVector3f := EuclideanSpace ℝ (Fin 3)

/-- Modelled from the spec: `VROVector3f::magnitude` is not part of the sources;
`|v|` is the Euclidean length. -/
noncomputable def VROVector3f.magnitude (v : VROVector3f) : ℝ := ‖v‖

/-- Modelled from the spec: `VROVector3f::normalize` is not part of the sources;
`normalize(v)` is `v` scaled by the inverse of its length. -/
noncomputable def VROVector3f.normalize (v : VROVector3f) : VROVector3f := (‖v‖)⁻¹ • v

/-- Modelled from the spec: `VROVector3f::scale` is not part of the sources; it
multiplies every component by the factor. -/
noncomputable def VROVector3f.scale (v : VROVector3f) (factor : ℝ) : VROVector3f :=
  factor • v

/-- The camera position set by the Orbit branch of `VRORenderer::prepareFrame`.
`headRotation` is the action of the head rotation matrix on a vector
(`VROMatrix4f::multiply(VROVector3f)`, not part of the sources); `povPosition`
is `_pointOfView->getPosition()`, `cameraPosition` is `nodeCamera->getPosition()`
and `orbitFocalPoint` is `nodeCamera->getOrbitFocalPoint()`. -/
noncomputable def orbitCameraPosition (headRotation : VROVector3f → VROVector3f)
    (povPosition cameraPosition orbitFocalPoint : VROVector3f) : VROVector3f :=
  let pos := povPosition + cameraPosition
  let focal := povPosition + orbitFocalPoint
  let v := focal - pos
  let orbitedRay := headRotation (VROVector3f.normalize v)
  focal - VROVector3f.scale orbitedRay (VROVector3f.magnitude v)

/-! ## Concrete inputs used by the examples -/

/-- A world without delegate and without reticle in which no controller reports
an active transition animation. -/
def idleWorld : World :=
  { nanoTime := 0, delegate := false, reticle := false
    hasActiveTransitionAnimation := fun _ => false }

/-- A world without delegate and without reticle in which every controller
reports an active transition animation. -/
def animatingWorld : World :=
  { nanoTime := 0, delegate := false, reticle := false
    hasActiveTransitionAnimation := fun _ => true }

/-- A world whose input presenter has a reticle; no delegate, no active
animation. -/
def reticleWorld : World :=
  { nanoTime := 0, delegate := false, reticle := true
    hasActiveTransitionAnimation := fun _ => false }

/-- A one-second transition with timing function 0. -/
def oneSecond : Transition := { seconds := 1, timingFunctionType := 0 }

/-- A renderer in the `Steady` state with controller `1` active. -/
def steadyOne : Renderer :=
  { Renderer.construct 100 with sceneController := some 1 }

/-- A renderer in the `Transitioning` state: controller `1` outgoing, `2` active. -/
def transitioningOneTwo : Renderer :=
  { Renderer.construct 100 with sceneController := some 2, outgoingSceneController := some 1 }

/-- A renderer whose outgoing and active controller are both `1`. -/
def selfOutgoing : Renderer :=
  { Renderer.construct 100 with sceneController := some 1, outgoingSceneController := some 1 }

/-- Three root nodes contributing one key each, with shader identities 1, 2, 1. -/
def interleavedScene : VROScene :=
  { nodes := [ { id := 0, sortKeys := [{ node := 0, elementIndex := 0, shader := 1 }] },
               { id := 1, sortKeys := [{ node := 1, elementIndex := 0, shader := 2 }] },
               { id := 2, sortKeys := [{ node := 2, elementIndex := 0, shader := 1 }] } ]
    keys := [] }

/-- A scene whose key list holds three keys with shader identities 1, 1, 2. -/
def batchedScene : VROScene :=
  { nodes := []
    keys := [ { node := 0, elementIndex := 0, shader := 1 },
              { node := 0, elementIndex := 1, shader := 1 },
              { node := 1, elementIndex := 0, shader := 2 } ] }

/-! ## FPS tracker: proofs -/

theorem sum_set_add_getD (l : List Nat) (i x : Nat) (h : i < l.length) :
    (l.set i x).sum + l.getD i 0 = l.sum + x := by
  induction l generalizing i with
  | nil => simp at h
  | cons a l ih =>
    cases i with
    | zero => simp; omega
    | succ i =>
      have h1 : i < l.length := by simpa using h
      have := ih i h1
      simp only [List.set_cons_succ, List.sum_cons, List.getD_cons_succ]
      omega

theorem getD_lt_of_entries_lt (l : List Nat) (i : Nat) (h : ∀ x ∈ l, x < u64) :
    l.getD i 0 < u64 := by
  by_cases hi : i < l.length
  · rw [List.getD_eq_getElem l 0 hi]
    exact h _ (List.getElem_mem hi)
  · rw [List.getD_eq_default l 0 (by omega)]
    decide

theorem FPSInv.construct (N : Nat) (hN : 0 < N) : FPSInv N (FPSTracker.construct N) := by
  refine ⟨by simp [FPSTracker.construct], by simpa [FPSTracker.construct] using hN, ?_, ?_⟩
  · intro x hx
    simp [FPSTracker.construct] at hx
    rw [hx.2]; decide
  · simp [FPSTracker.construct]

theorem FPSInv.update {N : Nat} {t : FPSTracker} (h : FPSInv N t) (tick : Nat)
    (htick : tick < u64) : FPSInv N (updateFPS N t tick) := by
  obtain ⟨hlen, hidx, hent, hsum⟩ := h
  refine ⟨by simp [updateFPS, hlen], ?_, ?_, ?_⟩
  · simp only [updateFPS]
    split <;> omega
  · intro x hx
    simp only [updateFPS] at hx
    rcases List.mem_or_eq_of_mem_set hx with h1 | h1
    · exact hent x h1
    · rw [h1]; exact htick
  · have hs := sum_set_add_getD t.fpsTickArray t.fpsTickIndex tick (by omega)
    have hg := getD_lt_of_entries_lt t.fpsTickArray t.fpsTickIndex hent
    simp only [updateFPS, sub64, add64, hsum]
    unfold u64 at *
    omega

theorem FPSReachable.inv {N : Nat} (hN : 0 < N) {t : FPSTracker} (h : FPSReachable N t) :
    FPSInv N t := by
  induction h with
  | construct => exact FPSInv.construct N hN
  | update tick _ htick ih => exact ih.update tick htick

theorem FPSInv.updateTimes {N : Nat} {t : FPSTracker} (h : FPSInv N t) (d : Nat)
    (hd : d < u64) (k : Nat) : FPSInv N (updateFPSTimes N t d k) := by
  induction k with
  | zero => exact h
  | succ k ih => exact ih.update d hd

theorem updateFPS_index {N : Nat} {t : FPSTracker} (h : FPSInv N t) (tick : Nat) :
    (updateFPS N t tick).fpsTickIndex = (t.fpsTickIndex + 1) % N := by
  have hidx := h.index_lt
  simp only [updateFPS]
  split
  · next heq => rw [heq, Nat.mod_self]
  · next hne => rw [Nat.mod_eq_of_lt (by omega)]

theorem updateFPSTimes_slots {N : Nat} {t : FPSTracker} (h : FPSInv N t) (d : Nat)
    (hd : d < u64) (k : Nat) :
    (updateFPSTimes N t d k).fpsTickIndex = (t.fpsTickIndex + k) % N ∧
    ∀ j, j < N → (∃ m, m < k ∧ j = (t.fpsTickIndex + m) % N) →
      (updateFPSTimes N t d k).fpsTickArray.getD j 0 = d := by
  induction k with
  | zero =>
    refine ⟨?_, ?_⟩
    · simp [updateFPSTimes, Nat.mod_eq_of_lt h.index_lt]
    · rintro j _ ⟨m, hm, _⟩; omega
  | succ k ih =>
    obtain ⟨ihidx, ihslots⟩ := ih
    have hinv := h.updateTimes d hd k
    refine ⟨?_, ?_⟩
    · show (updateFPS N (updateFPSTimes N t d k) d).fpsTickIndex = _
      rw [updateFPS_index hinv, ihidx, Nat.mod_add_mod, Nat.add_assoc]
    · rintro j hj ⟨m, hm, hjm⟩
      show (updateFPS N (updateFPSTimes N t d k) d).fpsTickArray.getD j 0 = d
      have hlen := hinv.length_eq
      simp only [updateFPS]
      by_cases hji : (updateFPSTimes N t d k).fpsTickIndex = j
      · rw [hji, List.getD_eq_getElem _ _ (by simp [hlen, hj])]
        simp
      · rw [List.getD_eq_getElem _ _ (by simp [hlen, hj]), List.getElem_set_ne hji]
        have hmk : m < k := by
          rcases Nat.lt_or_ge m k with h1 | h1
          · exact h1
          · exfalso
            have : m = k := by omega
            apply hji
            rw [ihidx, hjm, this]
        have := ihslots j hj ⟨m, hmk, hjm⟩
        rwa [List.getD_eq_getElem _ _ (by simp [hlen, hj])] at this

theorem updateFPSTimes_full_array {N : Nat} {t : FPSTracker} (h : FPSInv N t) (d : Nat)
    (hd : d < u64) : (updateFPSTimes N t d N).fpsTickArray = List.replicate N d := by
  have hinv := h.updateTimes d hd N
  have hslots := (updateFPSTimes_slots h d hd N).2
  have hi := h.index_lt
  apply List.ext_getElem
  · simp [hinv.length_eq]
  · intro j h1 h2
    have hj : j < N := by simpa using h2
    have hex : ∃ m, m < N ∧ j = (t.fpsTickIndex + m) % N := by
      by_cases hc : t.fpsTickIndex ≤ j
      · refine ⟨j - t.fpsTickIndex, by omega, ?_⟩
        rw [Nat.add_sub_cancel' hc, Nat.mod_eq_of_lt hj]
      · refine ⟨j + N - t.fpsTickIndex, by omega, ?_⟩
        have : t.fpsTickIndex + (j + N - t.fpsTickIndex) = j + N := by omega
        rw [this, Nat.add_mod_right, Nat.mod_eq_of_lt hj]
    have := hslots j hj hex
    rw [List.getD_eq_getElem _ _ h1] at this
    simp [this]

theorem updateFPSTimes_full_sum {N : Nat} {t : FPSTracker} (h : FPSInv N t) (d : Nat)
    (hd : d < u64) : (updateFPSTimes N t d N).fpsTickSum = (N * d) % u64 := by
  rw [(h.updateTimes d hd N).sum_eq, updateFPSTimes_full_array h d hd]
  simp

theorem roundNearestEven_of_abs_lt (x : ℚ) (k : ℤ) (h : |x - k| < 1 / 2) :
    roundNearestEven x = k := by
  rw [abs_lt] at h
  obtain ⟨h1, h2⟩ := h
  unfold roundNearestEven
  by_cases hk : (k : ℚ) ≤ x
  · have hf : ⌊x⌋ = k := by
      rw [Int.floor_eq_iff]
      constructor
      · exact hk
      · linarith
    rw [hf, if_pos (by linarith)]
  · have hf : ⌊x⌋ = k - 1 := by
      rw [Int.floor_eq_iff]
      push_cast
      constructor <;> linarith
    rw [hf]
    push_cast
    rw [if_neg (by linarith), if_pos (by linarith)]
    ring

theorem roundNearestEven_tie_even (m : ℤ) (hm : m % 2 = 0) :
    roundNearestEven ((m : ℚ) + 1 / 2) = m := by
  have hf : ⌊(m : ℚ) + 1 / 2⌋ = m := by
    rw [Int.floor_eq_iff]
    constructor <;> linarith
  unfold roundNearestEven
  rw [hf, if_neg (by norm_num), if_neg (by norm_num), if_pos hm]

theorem roundNearestEven_intCast (k : ℤ) : roundNearestEven (k : ℚ) = k :=
  roundNearestEven_of_abs_lt _ k (by norm_num)

theorem floor_le_roundNearestEven (x : ℚ) : ⌊x⌋ ≤ roundNearestEven x := by
  unfold roundNearestEven
  split_ifs <;> omega

theorem abs_roundNearestEven_sub_le (x : ℚ) : |(roundNearestEven x : ℚ) - x| ≤ 1 / 2 := by
  have h1 := Int.floor_le x
  have h2 := Int.lt_floor_add_one x
  unfold roundNearestEven
  rw [abs_le]
  split_ifs with ha hb hc
  · constructor <;> linarith
  · push_cast; constructor <;> linarith
  · constructor <;> linarith
  · push_cast; constructor <;> linarith

theorem log_two_bounds (q : ℚ) (hq : 0 < q) :
    (2 : ℚ) ^ Int.log 2 q ≤ q ∧ q < (2 : ℚ) ^ (Int.log 2 q + 1) := by
  have h1 := Int.zpow_log_le_self (b := 2) (by norm_num) hq
  have h2 := Int.lt_zpow_succ_log_self (b := 2) (by norm_num) q
  simpa using And.intro h1 h2

theorem log_two_eq (q : ℚ) (e : ℤ) (hq : 0 < q) (h1 : (2 : ℚ) ^ e ≤ q)
    (h2 : q < (2 : ℚ) ^ (e + 1)) : Int.log 2 q = e := by
  have a : e ≤ Int.log 2 q := by
    rw [← Int.zpow_le_iff_le_log (by norm_num) hq]
    simpa using h1
  have b : Int.log 2 q < e + 1 := by
    rw [← Int.lt_zpow_iff_log_lt (by norm_num) hq]
    simpa using h2
  omega

theorem roundDouble_eval (q : ℚ) (e k : ℤ) (hq : 0 < q) (h1 : (2 : ℚ) ^ e ≤ q)
    (h2 : q < (2 : ℚ) ^ (e + 1)) (hk : roundNearestEven (q / (2 : ℚ) ^ (e - 52)) = k) :
    roundDouble q = (k : ℚ) * (2 : ℚ) ^ (e - 52) := by
  unfold roundDouble
  rw [if_neg (not_le.mpr hq), log_two_eq q e hq h1 h2, hk]

theorem roundDouble_pos (q : ℚ) (hq : 0 < q) : 0 < roundDouble q := by
  obtain ⟨h1, _⟩ := log_two_bounds q hq
  unfold roundDouble
  rw [if_neg (not_le.mpr hq)]
  have hu : (0 : ℚ) < (2 : ℚ) ^ (Int.log 2 q - 52) := by positivity
  apply mul_pos _ hu
  have hx : (1 : ℚ) ≤ q / (2 : ℚ) ^ (Int.log 2 q - 52) := by
    rw [le_div_iff₀ hu, one_mul]
    refine le_trans ?_ h1
    exact zpow_le_zpow_right₀ (by norm_num) (by omega)
  have hfl : (1 : ℤ) ≤ ⌊q / (2 : ℚ) ^ (Int.log 2 q - 52)⌋ := by
    rw [Int.le_floor]; exact_mod_cast hx
  have := floor_le_roundNearestEven (q / (2 : ℚ) ^ (Int.log 2 q - 52))
  have h3 : (1 : ℤ) ≤ roundNearestEven (q / (2 : ℚ) ^ (Int.log 2 q - 52)) := le_trans hfl this
  exact_mod_cast h3

theorem roundDouble_error (q : ℚ) (hq : 0 < q) : |roundDouble q - q| ≤ q / 2 ^ 53 := by
  obtain ⟨h1, _⟩ := log_two_bounds q hq
  unfold roundDouble
  rw [if_neg (not_le.mpr hq)]
  have hu : (0 : ℚ) < (2 : ℚ) ^ (Int.log 2 q - 52) := by positivity
  have hr := abs_roundNearestEven_sub_le (q / (2 : ℚ) ^ (Int.log 2 q - 52))
  have heq : (roundNearestEven (q / (2 : ℚ) ^ (Int.log 2 q - 52)) : ℚ) * (2 : ℚ) ^ (Int.log 2 q - 52) - q
      = ((roundNearestEven (q / (2 : ℚ) ^ (Int.log 2 q - 52)) : ℚ) - q / (2 : ℚ) ^ (Int.log 2 q - 52))
          * (2 : ℚ) ^ (Int.log 2 q - 52) := by
    field_simp
  rw [heq, abs_mul, abs_of_pos hu]
  have hulp : (2 : ℚ) ^ (Int.log 2 q - 52) = (2 : ℚ) ^ Int.log 2 q / 2 ^ 52 := by
    rw [zpow_sub₀ (by norm_num)]; norm_num
  calc _ ≤ 1 / 2 * (2 : ℚ) ^ (Int.log 2 q - 52) := by
        apply mul_le_mul_of_nonneg_right hr hu.le
    _ = (2 : ℚ) ^ Int.log 2 q / 2 ^ 53 := by rw [hulp]; ring
    _ ≤ q / 2 ^ 53 := by
        apply div_le_div_of_nonneg_right h1 (by positivity)

theorem roundDouble_natCast (n : ℕ) (hn : n < 2 ^ 53) : roundDouble (n : ℚ) = n := by
  rcases Nat.eq_zero_or_pos n with h0 | hpos
  · subst h0; simp [roundDouble]
  have hq : (0 : ℚ) < n := by exact_mod_cast hpos
  obtain ⟨h1, h2⟩ := log_two_bounds (n : ℚ) hq
  have hlog : Int.log 2 (n : ℚ) < 53 := by
    rw [← Int.lt_zpow_iff_log_lt (by norm_num) hq]
    have h53 : ((n : ℕ) : ℚ) < (2 : ℚ) ^ (53 : ℕ) := by exact_mod_cast hn
    rw [Nat.cast_ofNat, show (53 : ℤ) = ((53 : ℕ) : ℤ) from rfl, zpow_natCast]
    exact h53
  obtain ⟨j, hj⟩ : ∃ j : ℕ, (j : ℤ) = 52 - Int.log 2 (n : ℚ) := ⟨(52 - Int.log 2 (n : ℚ)).toNat, by omega⟩
  have hexp : Int.log 2 (n : ℚ) - 52 = -(j : ℤ) := by omega
  unfold roundDouble
  rw [if_neg (not_le.mpr hq), hexp, zpow_neg, zpow_natCast]
  have hx : (n : ℚ) / ((2 : ℚ) ^ j)⁻¹ = (((n * 2 ^ j : ℕ) : ℤ) : ℚ) := by
    push_cast; field_simp
  rw [hx, roundNearestEven_intCast]
  push_cast
  field_simp

theorem Double.div_finite (a b : ℚ) :
    Double.div (Double.finite a) (Double.finite b) =
      if b = 0 then (if a = 0 then Double.nan else Double.inf)
      else Double.finite (roundDouble (a / b)) := rfl

theorem Double.ofNat_exact (n : Nat) (hn : n < 2 ^ 53) :
    Double.ofNat n = Double.finite (n : ℚ) := by
  rw [Double.ofNat, roundDouble_natCast n hn]

/-- When the sum is `N·d` and fits in 53 bits, the `double` average is exactly `d`. -/
theorem averageNanos_exact (N d : Nat) (t : FPSTracker) (hN : 0 < N)
    (hsum : t.fpsTickSum = N * d) (hfit : N * d < 2 ^ 53) :
    averageNanos N t = Double.finite (d : ℚ) := by
  have hNpos : (0 : ℚ) < (N : ℚ) := by exact_mod_cast hN
  have hrN : roundDouble (N : ℚ) ≠ 0 := (roundDouble_pos _ hNpos).ne'
  have hd53 : d < 2 ^ 53 := lt_of_le_of_lt (Nat.le_mul_of_pos_left d hN) hfit
  unfold averageNanos
  rw [hsum, Double.ofNat_exact _ hfit]
  simp only [Double.ofNat, Double.div_finite, if_neg hrN]
  rcases Nat.eq_zero_or_pos d with h0 | hpos
  · subst h0
    simp [roundDouble]
  · have hN53 : N < 2 ^ 53 := lt_of_le_of_lt (Nat.le_mul_of_pos_right N hpos) hfit
    rw [roundDouble_natCast N hN53]
    have : ((N * d : ℕ) : ℚ) / (N : ℚ) = (d : ℚ) := by
      push_cast; field_simp
    rw [this, roundDouble_natCast d hd53]

/-- Two correctly rounded operations, a value and then its reciprocal, stay
within four units of relative error of the exact reciprocal. -/
theorem reciprocal_error (x y z u : ℚ) (hx : 0 < x) (hu : 0 ≤ u) (hu4 : u ≤ 1 / 4)
    (hy : |y - x| ≤ x * u) (hz : |z - 1 / y| ≤ 1 / y * u) :
    |z - 1 / x| ≤ 1 / x * (4 * u) := by
  rw [abs_le] at hy hz
  obtain ⟨hy1, hy2⟩ := hy
  obtain ⟨hz1, hz2⟩ := hz
  have hypos : 0 < y := by nlinarith
  have hw : 0 < 1 / y := by positivity
  have hwy : 1 / y * y = 1 := by field_simp
  have hup : z * x * (1 - u) ≤ 1 + u := by
    have h1 : z ≤ 1 / y * (1 + u) := by linarith
    have h2 : x * (1 - u) ≤ y := by linarith
    have hxu : 0 ≤ x * (1 - u) := by nlinarith
    calc z * x * (1 - u) = z * (x * (1 - u)) := by ring
      _ ≤ 1 / y * (1 + u) * (x * (1 - u)) := mul_le_mul_of_nonneg_right h1 hxu
      _ ≤ 1 / y * (1 + u) * y := by
          apply mul_le_mul_of_nonneg_left h2
          positivity
      _ = 1 + u := by rw [mul_right_comm, hwy, one_mul]
  have hlo : 1 - u ≤ z * x * (1 + u) := by
    have h1 : 1 / y * (1 - u) ≤ z := by linarith
    have h2 : y ≤ x * (1 + u) := by linarith
    have h1u : 0 ≤ 1 / y * (1 - u) := by
      apply mul_nonneg hw.le; linarith
    calc 1 - u = 1 / y * (1 - u) * y := by rw [mul_right_comm, hwy, one_mul]
      _ ≤ 1 / y * (1 - u) * (x * (1 + u)) := mul_le_mul_of_nonneg_left h2 h1u
      _ ≤ z * (x * (1 + u)) := by
          apply mul_le_mul_of_nonneg_right h1
          positivity
      _ = z * x * (1 + u) := by ring
  have hzx1 : z * x ≤ 1 + 4 * u := by nlinarith
  have hzx2 : 1 - 4 * u ≤ z * x := by nlinarith
  have hrew : z - 1 / x = (z * x - 1) / x := by field_simp
  have hrew2 : 1 / x * (4 * u) = (4 * u) / x := by ring
  rw [hrew, hrew2, abs_div, abs_of_pos hx]
  apply div_le_div_of_nonneg_right _ hx.le
  rw [abs_le]
  constructor <;> linarith

/-- The value of `getFPS` when the average is exactly `d`. -/
theorem getFPS_of_average (N d : Nat) (t : FPSTracker)
    (havg : averageNanos N t = Double.finite (d : ℚ)) :
    (d = 0 → getFPS N t = Double.inf) ∧
    (0 < d → getFPS N t =
        Double.finite (roundDouble (1 / roundDouble ((d : ℚ) / 1000000000))) ∧
      |roundDouble (1 / roundDouble ((d : ℚ) / 1000000000)) - 1000000000 / (d : ℚ)|
        ≤ 1000000000 / (d : ℚ) / 2 ^ 51) := by
  refine ⟨fun h0 => ?_, fun hpos => ?_⟩
  · subst h0
    simp [getFPS, havg, Double.div_finite, roundDouble]
  · have hx : (0 : ℚ) < (d : ℚ) / 1000000000 := by
      have : (0 : ℚ) < (d : ℚ) := by exact_mod_cast hpos
      positivity
    have hy := roundDouble_pos _ hx
    have hw : (0 : ℚ) < 1 / roundDouble ((d : ℚ) / 1000000000) := by positivity
    refine ⟨?_, ?_⟩
    · rw [getFPS, havg, Double.div_finite, if_neg (by norm_num), Double.div_finite,
        if_neg hy.ne']
    · have e1 := roundDouble_error _ hx
      have e2 := roundDouble_error _ hw
      have := reciprocal_error ((d : ℚ) / 1000000000)
        (roundDouble ((d : ℚ) / 1000000000))
        (roundDouble (1 / roundDouble ((d : ℚ) / 1000000000))) (1 / 2 ^ 53)
        hx (by positivity) (by norm_num)
        (by rw [mul_one_div]; exact e1) (by rw [mul_one_div]; exact e2)
      have hd0 : (d : ℚ) ≠ 0 := by exact_mod_cast hpos.ne'
      have h1 : 1 / ((d : ℚ) / 1000000000) = 1000000000 / (d : ℚ) := by field_simp
      rw [h1] at this
      calc _ ≤ 1000000000 / (d : ℚ) * (4 * (1 / 2 ^ 53)) := this
        _ = 1000000000 / (d : ℚ) / 2 ^ 51 := by ring

/-- C7 (amended). From every tracker state reachable from construction, after
`N = kFPSMaxSamples` consecutive calls `updateFPS(d)` the running sum is `N·d`
reduced modulo `2^64`, hence `N·d` itself whenever `N·d < 2^64`. Whenever
`N·d < 2^53`, so that the sum converts to `double` without rounding, the average
`sum/N` that `getFPS` inverts is exactly `d`; the reported FPS is then `+inf` for
`d = 0` and, for `d > 0`, a finite `double` within relative error `2^-51` of
`1e9/d`. -/
theorem updateFPS_identical_samples (N : Nat) (t : FPSTracker) (d : Nat)
    (hN : 0 < N) (ht : FPSReachable N t) (hd : d < u64) :
    (updateFPSTimes N t d N).fpsTickSum = (N * d) % u64 ∧
    (N * d < u64 → (updateFPSTimes N t d N).fpsTickSum = N * d) ∧
    (N * d < 2 ^ 53 →
      averageNanos N (updateFPSTimes N t d N) = Double.finite (d : ℚ) ∧
      (d = 0 → getFPS N (updateFPSTimes N t d N) = Double.inf) ∧
      (0 < d → ∃ fps : ℚ, getFPS N (updateFPSTimes N t d N) = Double.finite fps ∧
        |fps - 1000000000 / (d : ℚ)| ≤ 1000000000 / (d : ℚ) / 2 ^ 51)) := by
  have hsum := updateFPSTimes_full_sum (ht.inv hN) d hd
  refine ⟨hsum, fun hfit => by rw [hsum, Nat.mod_eq_of_lt hfit], fun hfit => ?_⟩
  have hfit64 : N * d < u64 := lt_trans hfit (by decide)
  have hsum2 : (updateFPSTimes N t d N).fpsTickSum = N * d := by
    rw [hsum, Nat.mod_eq_of_lt hfit64]
  have havg := averageNanos_exact N d _ hN hsum2 hfit
  obtain ⟨h0, hpos⟩ := getFPS_of_average N d _ havg
  exact ⟨havg, h0, fun hd0 => ⟨_, (hpos hd0).1, (hpos hd0).2⟩⟩

/-- Witness for C7: three samples of 4 ns fed to a freshly constructed tracker of
size 3 give the sum 12 and the average 4, and the reported FPS is a finite value
within `2^-51` of `250000000`. -/
theorem updateFPS_identical_samples_witness :
    (updateFPSTimes 3 (FPSTracker.construct 3) 4 3).fpsTickSum = 12 ∧
    averageNanos 3 (updateFPSTimes 3 (FPSTracker.construct 3) 4 3) = Double.finite 4 ∧
    ∃ fps : ℚ, getFPS 3 (updateFPSTimes 3 (FPSTracker.construct 3) 4 3) = Double.finite fps ∧
      |fps - 250000000| ≤ 250000000 / 2 ^ 51 := by
  obtain ⟨_, h64, h53⟩ := updateFPS_identical_samples 3 (FPSTracker.construct 3) 4
    (by decide) FPSReachable.construct (by decide)
  obtain ⟨havg, _, hfps⟩ := h53 (by decide)
  obtain ⟨fps, h1, h2⟩ := hfps (by decide)
  refine ⟨h64 (by decide), by simpa using havg, fps, h1, ?_⟩
  have e : (1000000000 : ℚ) / ((4 : ℕ) : ℚ) = 250000000 := by norm_num
  rwa [e] at h2

/-- Counterexample for C7 as stated, at `kFPSMaxSamples = 100`. (1) `d = 2^63`: the
sum wraps to `0`, so the average is `0`, not `d`. (2) `d = 360287970189641`:
`N·d` fits in 64 bits but not in 53; the conversion to `double` rounds the sum and
the average is `360287970189640.9375`, not `d`. (3) `d = 16666667`: the average is
`d`, and the reported FPS is the `double` `8444249132434698 · 2^-47`, which is not
`1e9/d`. -/
theorem updateFPS_identical_samples_inexact :
    ((9223372036854775808 : Nat) < u64 ∧
      (updateFPSTimes 100 (FPSTracker.construct 100) 9223372036854775808 100).fpsTickSum
        = 0 ∧
      averageNanos 100
        (updateFPSTimes 100 (FPSTracker.construct 100) 9223372036854775808 100)
        = Double.finite 0) ∧
    (100 * 360287970189641 < u64 ∧
      (updateFPSTimes 100 (FPSTracker.construct 100) 360287970189641 100).fpsTickSum
        = 100 * 360287970189641 ∧
      averageNanos 100
        (updateFPSTimes 100 (FPSTracker.construct 100) 360287970189641 100)
        = Double.finite (5764607523034255 / 16) ∧
      (5764607523034255 / 16 : ℚ) ≠ 360287970189641) ∧
    (averageNanos 100 (updateFPSTimes 100 (FPSTracker.construct 100) 16666667 100)
        = Double.finite 16666667 ∧
      getFPS 100 (updateFPSTimes 100 (FPSTracker.construct 100) 16666667 100)
        = Double.finite (4222124566217349 / 70368744177664) ∧
      (4222124566217349 / 70368744177664 : ℚ) ≠ 1000000000 / 16666667) := by
  have hinv := FPSInv.construct 100 (by decide)
  have r100 : roundDouble ((100 : ℕ) : ℚ) = 100 := by
    rw [roundDouble_natCast 100 (by norm_num)]; norm_num
  refine ⟨?_, ?_, ?_⟩
  · have h := updateFPSTimes_full_sum hinv 9223372036854775808 (by decide)
    have h0 : (100 * 9223372036854775808) % u64 = 0 := by decide
    rw [h0] at h
    refine ⟨by decide, h, ?_⟩
    simp only [averageNanos, h, Double.ofNat, Double.div_finite, r100]
    norm_num [roundDouble]
  · have h := updateFPSTimes_full_sum hinv 360287970189641 (by decide)
    have h0 : (100 * 360287970189641) % u64 = 100 * 360287970189641 := by decide
    rw [h0] at h
    refine ⟨by decide, h, ?_, by norm_num⟩
    have hs : roundDouble ((100 * 360287970189641 : ℕ) : ℚ) = 36028797018964096 := by
      rw [roundDouble_eval _ 55 4503599627370512 (by norm_num) (by norm_num) (by norm_num)]
      · norm_num
      · have hx : ((100 * 360287970189641 : ℕ) : ℚ) / (2 : ℚ) ^ ((55 : ℤ) - 52)
            = ((4503599627370512 : ℤ) : ℚ) + 1 / 2 := by norm_num
        rw [hx]
        exact roundNearestEven_tie_even _ (by decide)
    have ha : roundDouble ((36028797018964096 : ℚ) / 100) = 5764607523034255 / 16 := by
      rw [roundDouble_eval _ 48 5764607523034255 (by norm_num) (by norm_num) (by norm_num)]
      · norm_num
      · apply roundNearestEven_of_abs_lt
        norm_num [abs_lt]
    simp only [averageNanos, h, Double.ofNat, Double.div_finite, r100, hs]
    rw [if_neg (by norm_num), ha]
  · have h := updateFPSTimes_full_sum hinv 16666667 (by decide)
    have h0 : (100 * 16666667) % u64 = 100 * 16666667 := by decide
    rw [h0] at h
    have havg := averageNanos_exact 100 16666667 _ (by decide) h (by norm_num)
    have hy : roundDouble ((16666667 : ℚ) / 1000000000)
        = 4803839698605321 / 288230376151711744 := by
      rw [roundDouble_eval _ (-6) 4803839698605321 (by norm_num) (by norm_num) (by norm_num)]
      · norm_num
      · apply roundNearestEven_of_abs_lt
        norm_num [abs_lt]
    have hz : roundDouble (1 / (4803839698605321 / 288230376151711744 : ℚ))
        = 4222124566217349 / 70368744177664 := by
      rw [roundDouble_eval _ 5 8444249132434698 (by norm_num) (by norm_num) (by norm_num)]
      · norm_num
      · apply roundNearestEven_of_abs_lt
        norm_num [abs_lt]
    refine ⟨by simpa using havg, ?_, by norm_num⟩
    have hg := (getFPS_of_average 100 16666667 _ havg).2 (by decide)
    rw [hg.1]
    norm_num only [Nat.cast_ofNat] at hy ⊢
    rw [hy, hz]

/-! ## Renderer: single calls -/

theorem prepareFrame_controllers (N : Nat) (w : World) (frame : Int) (r : Renderer) :
    (prepareFrame N w frame r).1.sceneController = r.sceneController ∧
    (prepareFrame N w frame r).1.outgoingSceneController = r.outgoingSceneController := by
  unfold prepareFrame
  split <;> simp

theorem prepareFrameScenes_filter (p : Event → Bool) (r : Renderer)
    (h1 : ∀ c, p (Event.updateSortKeys c) = false) (h2 : p Event.onProcess = false) :
    (prepareFrameScenes r).filter p = [] := by
  unfold prepareFrameScenes
  cases r.sceneController <;> cases r.outgoingSceneController <;> simp [h1, h2]

theorem prepareFrame_filter (p : Event → Bool) (N : Nat) (w : World) (frame : Int)
    (r : Renderer) (h0 : p Event.setupRendererWithDriver = false)
    (h1 : ∀ c, p (Event.updateSortKeys c) = false) (h2 : p Event.onProcess = false)
    (h3 : p Event.beginImplicitAnimation = false) (h4 : p Event.transactionUpdate = false)
    (h5 : p Event.notifyFrameStart = false) (h6 : p Event.onFrame = false) :
    (prepareFrame N w frame r).2.filter p = [] := by
  unfold prepareFrame
  simp only [List.filter_append, prepareFrameScenes_filter p r h1 h2]
  split <;> cases w.delegate <;> simp [h0, h3, h4, h5, h6]

theorem prepareFrame_no_appearance (N : Nat) (w : World) (frame : Int) (r : Renderer) :
    (prepareFrame N w frame r).2.filter Event.isAppearance = [] :=
  prepareFrame_filter _ N w frame r rfl (fun _ => rfl) rfl rfl rfl rfl rfl

theorem prepareFrame_no_draw (N : Nat) (w : World) (frame : Int) (r : Renderer) :
    (prepareFrame N w frame r).2.filter Event.isDraw = [] :=
  prepareFrame_filter _ N w frame r rfl (fun _ => rfl) rfl rfl rfl rfl rfl

theorem prepareFrame_no_sceneDraw (N : Nat) (w : World) (frame : Int) (r : Renderer) :
    (prepareFrame N w frame r).2.filter Event.isSceneDraw = [] :=
  prepareFrame_filter _ N w frame r rfl (fun _ => rfl) rfl rfl rfl rfl rfl

theorem renderEyeScenes_no_appearance (w : World) (r : Renderer) :
    (renderEyeScenes w r).filter Event.isAppearance = [] := by
  unfold renderEyeScenes
  cases r.sceneController <;> cases r.outgoingSceneController <;>
    simp [Event.isAppearance]
  split <;> simp

theorem renderEye_no_appearance (w : World) (eye : Nat) (r : Renderer) :
    (renderEye w eye r).2.filter Event.isAppearance = [] := by
  unfold renderEye
  simp only [List.filter_append, renderEyeScenes_no_appearance]
  cases w.delegate <;> cases w.reticle <;> simp [Event.isAppearance]

/-- A frame call made while no outgoing controller is set succeeds, keeps both
controller slots and fires no appear/disappear notification. -/
theorem step_frame_steady (N : Nat) (w : World) (c : Call) (r : Renderer)
    (hc : c.isFrameCall = true) (hout : r.outgoingSceneController = none) :
    ∃ r1 evs, step N w c r = some (r1, evs) ∧ r1.outgoingSceneController = none ∧
      r1.sceneController = r.sceneController ∧ evs.filter Event.isAppearance = [] := by
  cases c with
  | setSceneController sc => simp [Call.isFrameCall] at hc
  | setSceneControllerTimed sc t => simp [Call.isFrameCall] at hc
  | prepareFrame frame =>
    exact ⟨(prepareFrame N w frame r).1, (prepareFrame N w frame r).2, rfl,
      (prepareFrame_controllers N w frame r).2.trans hout,
      (prepareFrame_controllers N w frame r).1, prepareFrame_no_appearance N w frame r⟩
  | renderEye eye =>
    exact ⟨(renderEye w eye r).1, (renderEye w eye r).2, rfl, hout, rfl,
      renderEye_no_appearance w eye r⟩
  | endFrame =>
    refine ⟨r, [Event.notifyFrameEnd, Event.commitAll], ?_, hout, rfl, by simp [Event.isAppearance]⟩
    simp [step, endFrame, hout]

/-- A frame call made while the outgoing controller `a` still reports an active
transition animation succeeds, keeps both controller slots and fires no
appear/disappear notification. -/
theorem step_frame_active (N : Nat) (w : World) (c : Call) (r : Renderer) (a : Ctrl)
    (hc : c.isFrameCall = true) (hout : r.outgoingSceneController = some a)
    (hact : c = Call.endFrame → w.hasActiveTransitionAnimation a = true) :
    ∃ r1 evs, step N w c r = some (r1, evs) ∧ r1.outgoingSceneController = some a ∧
      r1.sceneController = r.sceneController ∧ evs.filter Event.isAppearance = [] := by
  cases c with
  | setSceneController sc => simp [Call.isFrameCall] at hc
  | setSceneControllerTimed sc t => simp [Call.isFrameCall] at hc
  | prepareFrame frame =>
    exact ⟨(prepareFrame N w frame r).1, (prepareFrame N w frame r).2, rfl,
      (prepareFrame_controllers N w frame r).2.trans hout,
      (prepareFrame_controllers N w frame r).1, prepareFrame_no_appearance N w frame r⟩
  | renderEye eye =>
    exact ⟨(renderEye w eye r).1, (renderEye w eye r).2, rfl, hout, rfl,
      renderEye_no_appearance w eye r⟩
  | endFrame =>
    refine ⟨r, [Event.notifyFrameEnd, Event.commitAll], ?_, hout, rfl, by simp [Event.isAppearance]⟩
    simp [step, endFrame, hout, hact rfl]

/-- The settling `endFrame`: the outgoing controller `a` reports no active
animation while `b` is active. -/
theorem step_endFrame_settle (N : Nat) (w : World) (r : Renderer) (a b : Ctrl)
    (hout : r.outgoingSceneController = some a) (hact : r.sceneController = some b)
    (hw : w.hasActiveTransitionAnimation a = false) :
    step N w Call.endFrame r =
      some ({ r with outgoingSceneController := none },
        [Event.onSceneDidAppear b, Event.onSceneDidDisappear a,
         Event.notifyFrameEnd, Event.commitAll]) := by
  simp [step, endFrame, hout, hact, hw]

/-! ## Renderer: call sequences -/

theorem run_cons (N : Nat) (w : World) (c : Call) (rest : List (World × Call))
    (r r1 r2 : Renderer) (evs1 evs2 : List Event)
    (h1 : step N w c r = some (r1, evs1)) (h2 : run N rest r1 = some (r2, evs2)) :
    run N ((w, c) :: rest) r = some (r2, evs1 ++ evs2) := by
  simp [run, h1, h2]

theorem run_append (N : Nat) (xs ys : List (World × Call)) (r r1 r2 : Renderer)
    (evs1 evs2 : List Event) (h1 : run N xs r = some (r1, evs1))
    (h2 : run N ys r1 = some (r2, evs2)) :
    run N (xs ++ ys) r = some (r2, evs1 ++ evs2) := by
  induction xs generalizing r evs1 with
  | nil =>
    simp only [run, Option.some.injEq, Prod.mk.injEq] at h1
    obtain ⟨rfl, rfl⟩ := h1
    simpa using h2
  | cons wc xs ih =>
    obtain ⟨w, c⟩ := wc
    simp only [run] at h1
    cases hs : step N w c r with
    | none => simp [hs] at h1
    | some p =>
      obtain ⟨ra, ea⟩ := p
      simp only [hs] at h1
      cases hr : run N xs ra with
      | none => simp [hr] at h1
      | some q =>
        obtain ⟨rb, eb⟩ := q
        simp only [hr, Option.some.injEq, Prod.mk.injEq] at h1
        obtain ⟨rfl, rfl⟩ := h1
        have := ih ra eb hr
        simp only [List.cons_append, List.append_assoc]
        exact run_cons N w c (xs ++ ys) r ra r2 ea (eb ++ evs2) hs this

/-- Frame calls made while no outgoing controller is set. -/
theorem run_frames_steady (N : Nat) (calls : List (World × Call)) (r : Renderer)
    (hcalls : ∀ wc ∈ calls, wc.2.isFrameCall = true)
    (hout : r.outgoingSceneController = none) :
    ∃ r1 evs, run N calls r = some (r1, evs) ∧ r1.outgoingSceneController = none ∧
      r1.sceneController = r.sceneController ∧ evs.filter Event.isAppearance = [] := by
  induction calls generalizing r with
  | nil => exact ⟨r, [], rfl, hout, rfl, rfl⟩
  | cons wc calls ih =>
    obtain ⟨w, c⟩ := wc
    obtain ⟨r1, evs1, hs, ho1, hc1, hf1⟩ :=
      step_frame_steady N w c r (hcalls (w, c) (List.mem_cons_self _ _)) hout
    obtain ⟨r2, evs2, hr, ho2, hc2, hf2⟩ :=
      ih r1 (fun wc h => hcalls wc (List.mem_cons_of_mem _ h)) ho1
    exact ⟨r2, evs1 ++ evs2, run_cons N w c calls r r1 r2 evs1 evs2 hs hr, ho2,
      hc2.trans hc1, by simp [hf1, hf2]⟩

/-- Frame calls made while the outgoing controller `a` reports an active
transition animation at every `endFrame`. -/
theorem run_frames_active (N : Nat) (calls : List (World × Call)) (r : Renderer)
    (a : Ctrl) (hcalls : ∀ wc ∈ calls, wc.2.isFrameCall = true)
    (hactive : ∀ wc ∈ calls, wc.2 = Call.endFrame →
      wc.1.hasActiveTransitionAnimation a = true)
    (hout : r.outgoingSceneController = some a) :
    ∃ r1 evs, run N calls r = some (r1, evs) ∧ r1.outgoingSceneController = some a ∧
      r1.sceneController = r.sceneController ∧ evs.filter Event.isAppearance = [] := by
  induction calls generalizing r with
  | nil => exact ⟨r, [], rfl, hout, rfl, rfl⟩
  | cons wc calls ih =>
    obtain ⟨w, c⟩ := wc
    obtain ⟨r1, evs1, hs, ho1, hc1, hf1⟩ :=
      step_frame_active N w c r a (hcalls (w, c) (List.mem_cons_self _ _)) hout
        (hactive (w, c) (List.mem_cons_self _ _))
    obtain ⟨r2, evs2, hr, ho2, hc2, hf2⟩ :=
      ih r1 (fun wc h => hcalls wc (List.mem_cons_of_mem _ h))
        (fun wc h => hactive wc (List.mem_cons_of_mem _ h)) ho1
    exact ⟨r2, evs1 ++ evs2, run_cons N w c calls r r1 r2 evs1 evs2 hs hr, ho2,
      hc2.trans hc1, by simp [hf1, hf2]⟩

/-! ## Scene transitions -/

/-- Two timed changes, to `a` and then to `b`, made on a freshly constructed
renderer. -/
theorem reachableVia_two_timed (P : Renderer → Call → Prop) (a b : Ctrl)
    (h1 : P (Renderer.construct 100) (Call.setSceneControllerTimed (some a) oneSecond))
    (h2 : P { Renderer.construct 100 with sceneController := some a }
      (Call.setSceneControllerTimed (some b) oneSecond)) :
    ReachableVia 100 P
      { Renderer.construct 100 with
          sceneController := some b, outgoingSceneController := some a } :=
  ReachableVia.call idleWorld (Call.setSceneControllerTimed (some b) oneSecond)
    (ReachableVia.call idleWorld (Call.setSceneControllerTimed (some a) oneSecond)
      ReachableVia.construct h1 rfl) h2 rfl

theorem setSceneControllerTimed_transition_state (r r1 : Renderer) (a b : Ctrl)
    (t : Transition) (evs0 : List Event) (ha : r.sceneController = some a)
    (hset : setSceneControllerTimed (some b) t r = some (r1, evs0)) :
    r1.outgoingSceneController = some a ∧ r1.sceneController = some b := by
  simp only [setSceneControllerTimed, ha, Option.some.injEq, Prod.mk.injEq] at hset
  obtain ⟨rfl, _⟩ := hset
  exact ⟨rfl, rfl⟩

/-- C1. In every renderer state whose active controller is `a`, the timed
`setSceneController(b, seconds, timingFunction, driver)` returns with outgoing
controller `a` and active controller `b`. After attaching the scene to the input
controller it has called `onSceneWillAppear` on `b`, `onSceneWillDisappear` on
`a`, `startIncomingTransition` on `b` and `startOutgoingTransition` on `a`, in
that order, and nothing else: no did-appear or did-disappear notification. -/
theorem setSceneControllerTimed_starts_transition (r : Renderer) (a b : Ctrl)
    (t : Transition) (ha : r.sceneController = some a) :
    setSceneControllerTimed (some b) t r =
      some ({ r with outgoingSceneController := some a, sceneController := some b },
        [Event.attachScene b, Event.onSceneWillAppear b, Event.onSceneWillDisappear a,
         Event.startIncomingTransition b t, Event.startOutgoingTransition a t]) := by
  simp [setSceneControllerTimed, ha]

/-- Witness for C1: a timed change from controller `1` to controller `2`. -/
theorem setSceneControllerTimed_starts_transition_witness :
    setSceneControllerTimed (some 2) oneSecond steadyOne =
      some ({ steadyOne with outgoingSceneController := some 1, sceneController := some 2 },
        [Event.attachScene 2, Event.onSceneWillAppear 2, Event.onSceneWillDisappear 1,
         Event.startIncomingTransition 2 oneSecond,
         Event.startOutgoingTransition 1 oneSecond]) :=
  setSceneControllerTimed_starts_transition steadyOne 1 2 oneSecond rfl

/-- C2. After a timed change from active controller `a` to `b`, consider any
following frame calls (`prepareFrame`, `renderEye`, `endFrame`; no scene change).
While `a` reports an active transition animation at every `endFrame`, all calls
succeed, no appear/disappear notification is fired and the outgoing controller
stays `a`. At the first `endFrame` where `a` reports no active animation, that
call fires `onSceneDidAppear(b)` then `onSceneDidDisappear(a)` and clears the
outgoing controller; no later frame call fires an appear/disappear notification,
so over the whole run each of the two is fired exactly once. -/
theorem timed_transition_settles_once (N : Nat) (r r1 : Renderer) (a b : Ctrl)
    (t : Transition) (evs0 : List Event) (ha : r.sceneController = some a)
    (hset : setSceneControllerTimed (some b) t r = some (r1, evs0)) :
    (∀ calls : List (World × Call),
      (∀ wc ∈ calls, wc.2.isFrameCall = true) →
      (∀ wc ∈ calls, wc.2 = Call.endFrame → wc.1.hasActiveTransitionAnimation a = true) →
      ∃ r2 evs, run N calls r1 = some (r2, evs) ∧
        r2.outgoingSceneController = some a ∧ r2.sceneController = some b ∧
        evs.filter Event.isAppearance = []) ∧
    (∀ (pre post : List (World × Call)) (w : World),
      (∀ wc ∈ pre, wc.2.isFrameCall = true) →
      (∀ wc ∈ post, wc.2.isFrameCall = true) →
      (∀ wc ∈ pre, wc.2 = Call.endFrame → wc.1.hasActiveTransitionAnimation a = true) →
      w.hasActiveTransitionAnimation a = false →
      ∃ r2 r3 evsPre evsPost,
        run N pre r1 = some (r2, evsPre) ∧
        evsPre.filter Event.isAppearance = [] ∧
        r2.outgoingSceneController = some a ∧
        step N w Call.endFrame r2 =
          some ({ r2 with outgoingSceneController := none },
            [Event.onSceneDidAppear b, Event.onSceneDidDisappear a,
             Event.notifyFrameEnd, Event.commitAll]) ∧
        run N post { r2 with outgoingSceneController := none } = some (r3, evsPost) ∧
        evsPost.filter Event.isAppearance = [] ∧
        r3.outgoingSceneController = none ∧
        run N (pre ++ (w, Call.endFrame) :: post) r1 =
          some (r3, evsPre ++ ([Event.onSceneDidAppear b, Event.onSceneDidDisappear a,
             Event.notifyFrameEnd, Event.commitAll] ++ evsPost)) ∧
        (evsPre ++ ([Event.onSceneDidAppear b, Event.onSceneDidDisappear a,
             Event.notifyFrameEnd, Event.commitAll] ++ evsPost)).filter Event.isAppearance
          = [Event.onSceneDidAppear b, Event.onSceneDidDisappear a]) := by
  have h1 := setSceneControllerTimed_transition_state r r1 a b t evs0 ha hset
  obtain ⟨hout1, hact1⟩ := h1
  refine ⟨?_, ?_⟩
  · intro calls hcalls hactive
    obtain ⟨r2, evs, hr, ho, hc, hf⟩ := run_frames_active N calls r1 a hcalls hactive hout1
    exact ⟨r2, evs, hr, ho, hc.trans hact1, hf⟩
  · intro pre post w hpre hpost hactive hw
    obtain ⟨r2, evsPre, hr2, ho2, hc2, hf2⟩ :=
      run_frames_active N pre r1 a hpre hactive hout1
    have hsettle := step_endFrame_settle N w r2 a b ho2 (hc2.trans hact1) hw
    obtain ⟨r3, evsPost, hr3, ho3, _, hf3⟩ :=
      run_frames_steady N post { r2 with outgoingSceneController := none } hpost rfl
    refine ⟨r2, r3, evsPre, evsPost, hr2, hf2, ho2, hsettle, hr3, hf3, ho3, ?_, ?_⟩
    · exact run_append N pre _ r1 r2 r3 evsPre _ hr2
        (run_cons N w Call.endFrame post r2 _ r3 _ evsPost hsettle hr3)
    · simp [List.filter_append, hf2, hf3, Event.isAppearance]

/-- Witness for C2 at `1 → 2`: one frame during which `1` is still animating, then
an `endFrame` at which it is not, then one more frame. -/
theorem timed_transition_settles_once_witness :
    (∃ r2 evs,
      run 100 [(animatingWorld, Call.prepareFrame 1), (animatingWorld, Call.renderEye 0),
        (animatingWorld, Call.endFrame)] transitioningOneTwo = some (r2, evs) ∧
      r2.outgoingSceneController = some 1 ∧ evs.filter Event.isAppearance = []) ∧
    (∃ r3 evs,
      run 100 ([(animatingWorld, Call.prepareFrame 1), (animatingWorld, Call.endFrame)] ++
        (idleWorld, Call.endFrame) ::
          [(idleWorld, Call.prepareFrame 2), (idleWorld, Call.endFrame)])
        transitioningOneTwo = some (r3, evs) ∧
      r3.outgoingSceneController = none ∧
      evs.filter Event.isAppearance =
        [Event.onSceneDidAppear 2, Event.onSceneDidDisappear 1]) := by
  have h := timed_transition_settles_once 100 steadyOne transitioningOneTwo 1 2 oneSecond
    [Event.attachScene 2, Event.onSceneWillAppear 2, Event.onSceneWillDisappear 1,
      Event.startIncomingTransition 2 oneSecond, Event.startOutgoingTransition 1 oneSecond]
    rfl rfl
  refine ⟨?_, ?_⟩
  · obtain ⟨r2, evs, h1, h2, _, h4⟩ := h.1
      [(animatingWorld, Call.prepareFrame 1), (animatingWorld, Call.renderEye 0),
        (animatingWorld, Call.endFrame)]
      (by simp [Call.isFrameCall]) (by simp [animatingWorld])
    exact ⟨r2, evs, h1, h2, h4⟩
  · obtain ⟨_, r3, _, _, _, _, _, _, _, _, h7, h8, h9⟩ := h.2
      [(animatingWorld, Call.prepareFrame 1), (animatingWorld, Call.endFrame)]
      [(idleWorld, Call.prepareFrame 2), (idleWorld, Call.endFrame)] idleWorld
      (by simp [Call.isFrameCall]) (by simp [Call.isFrameCall]) (by simp [animatingWorld]) rfl
    exact ⟨r3, _, h8, h7, h9⟩

/-- C3 (amended). In every renderer state, the immediate
`setSceneController(c, driver)` fires, within the call, will-appear on `c`,
will-disappear on the previously active controller (if any), did-appear on `c`
and did-disappear on the previously active controller (if any), in that order,
and makes `c` the active controller. When no outgoing controller is set on entry
(`Steady`), none is set on return and no later frame call (`prepareFrame`,
`renderEye`, `endFrame`) fires an appear/disappear notification. -/
theorem setSceneController_immediate (N : Nat) (r : Renderer) (c : Ctrl) :
    (∀ p, r.sceneController = some p →
      setSceneController (some c) r =
        some ({ r with sceneController := some c },
          [Event.attachScene c, Event.onSceneWillAppear c, Event.onSceneWillDisappear p,
           Event.onSceneDidAppear c, Event.onSceneDidDisappear p])) ∧
    (r.sceneController = none →
      setSceneController (some c) r =
        some ({ r with sceneController := some c },
          [Event.attachScene c, Event.onSceneWillAppear c, Event.onSceneDidAppear c])) ∧
    (r.outgoingSceneController = none →
      ∀ calls : List (World × Call), (∀ wc ∈ calls, wc.2.isFrameCall = true) →
        ∃ r2 evs, run N calls { r with sceneController := some c } = some (r2, evs) ∧
          r2.outgoingSceneController = none ∧ evs.filter Event.isAppearance = []) := by
  refine ⟨?_, ?_, ?_⟩
  · intro p hp
    simp [setSceneController, hp]
  · intro hp
    simp [setSceneController, hp]
  · intro hout calls hcalls
    obtain ⟨r2, evs, h1, h2, _, h4⟩ :=
      run_frames_steady N calls { r with sceneController := some c } hcalls hout
    exact ⟨r2, evs, h1, h2, h4⟩

/-- Witness for C3 (amended): an immediate change from `1` to `3` in the `Steady`
state, followed by one frame; and an immediate change on a freshly constructed
renderer. -/
theorem setSceneController_immediate_witness :
    setSceneController (some 3) steadyOne =
      some ({ steadyOne with sceneController := some 3 },
        [Event.attachScene 3, Event.onSceneWillAppear 3, Event.onSceneWillDisappear 1,
         Event.onSceneDidAppear 3, Event.onSceneDidDisappear 1]) ∧
    (∃ r2 evs,
      run 100 [(idleWorld, Call.prepareFrame 1), (idleWorld, Call.renderEye 0),
        (idleWorld, Call.endFrame)] { steadyOne with sceneController := some 3 }
        = some (r2, evs) ∧
      r2.outgoingSceneController = none ∧ evs.filter Event.isAppearance = []) ∧
    setSceneController (some 3) (Renderer.construct 100) =
      some ({ Renderer.construct 100 with sceneController := some 3 },
        [Event.attachScene 3, Event.onSceneWillAppear 3, Event.onSceneDidAppear 3]) :=
  ⟨(setSceneController_immediate 100 steadyOne 3).1 1 rfl,
    (setSceneController_immediate 100 steadyOne 3).2.2 rfl _ (by simp [Call.isFrameCall]),
    (setSceneController_immediate 100 (Renderer.construct 100) 3).2.1 rfl⟩

/-- Counterexample for C3 as stated: in the reachable `Transitioning` state with `1`
outgoing and `2` active, the immediate change to `3` returns with `1` still
outgoing, and the next `endFrame` at which `1` reports no active animation fires
`onSceneDidAppear(3)` and `onSceneDidDisappear(1)`. -/
theorem setSceneController_immediate_while_transitioning :
    Reachable 100 transitioningOneTwo ∧
    setSceneController (some 3) transitioningOneTwo =
      some ({ transitioningOneTwo with sceneController := some 3 },
        [Event.attachScene 3, Event.onSceneWillAppear 3, Event.onSceneWillDisappear 2,
         Event.onSceneDidAppear 3, Event.onSceneDidDisappear 2]) ∧
    ({ transitioningOneTwo with sceneController := some 3 } : Renderer).outgoingSceneController
      = some 1 ∧
    endFrame idleWorld { transitioningOneTwo with sceneController := some 3 } =
      some ({ transitioningOneTwo with
                sceneController := some 3, outgoingSceneController := none },
        [Event.onSceneDidAppear 3, Event.onSceneDidDisappear 1,
         Event.notifyFrameEnd, Event.commitAll]) :=
  ⟨reachableVia_two_timed _ 1 2 trivial trivial, rfl, rfl, rfl⟩

/-! ## Invariants of the two controller slots -/

/-- What a successful call does to the two controller slots. -/
theorem step_slots (N : Nat) (w : World) (c : Call) (r r1 : Renderer) (evs : List Event)
    (h : step N w c r = some (r1, evs)) :
    (∃ x, c = Call.setSceneController (some x) ∧ r1.sceneController = some x ∧
      r1.outgoingSceneController = r.outgoingSceneController) ∨
    (∃ x t, c = Call.setSceneControllerTimed (some x) t ∧ r1.sceneController = some x ∧
      r1.outgoingSceneController = r.sceneController) ∨
    (c.isFrameCall = true ∧ r1.sceneController = r.sceneController ∧
      (r1.outgoingSceneController = r.outgoingSceneController ∨
        r1.outgoingSceneController = none)) := by
  cases c with
  | setSceneController sc =>
    cases sc with
    | none => simp [step, setSceneController] at h
    | some x =>
      simp only [step, setSceneController, Option.some.injEq, Prod.mk.injEq] at h
      obtain ⟨rfl, _⟩ := h
      exact Or.inl ⟨x, rfl, rfl, rfl⟩
  | setSceneControllerTimed sc t =>
    cases sc with
    | none => simp [step, setSceneControllerTimed] at h
    | some x =>
      simp only [step, setSceneControllerTimed, Option.some.injEq, Prod.mk.injEq] at h
      obtain ⟨rfl, _⟩ := h
      exact Or.inr (Or.inl ⟨x, t, rfl, rfl, rfl⟩)
  | prepareFrame frame =>
    simp only [step, Option.some.injEq] at h
    have hc := prepareFrame_controllers N w frame r
    rw [h] at hc
    exact Or.inr (Or.inr ⟨rfl, hc.1, Or.inl hc.2⟩)
  | renderEye eye =>
    simp only [step, renderEye, Option.some.injEq, Prod.mk.injEq] at h
    obtain ⟨rfl, _⟩ := h
    exact Or.inr (Or.inr ⟨rfl, rfl, Or.inl rfl⟩)
  | endFrame =>
    refine Or.inr (Or.inr ⟨rfl, ?_⟩)
    simp only [step, endFrame] at h
    split at h
    · split at h
      · split at h
        · simp at h
        · simp only [Option.some.injEq, Prod.mk.injEq] at h
          obtain ⟨rfl, _⟩ := h
          exact ⟨rfl, Or.inr rfl⟩
      · simp only [Option.some.injEq, Prod.mk.injEq] at h
        obtain ⟨rfl, _⟩ := h
        exact ⟨rfl, Or.inl rfl⟩
    · simp only [Option.some.injEq, Prod.mk.injEq] at h
      obtain ⟨rfl, _⟩ := h
      exact ⟨rfl, Or.inl rfl⟩

/-- C4 (amended). In every renderer state reachable from construction by
immediate and timed `setSceneController`, `prepareFrame`, `renderEye` and
`endFrame` calls in which no timed change is given the currently active
controller and no immediate change is given the current outgoing controller, the
outgoing controller, when set, differs from the active controller. -/
theorem outgoing_differs_from_active (N : Nat) (r : Renderer)
    (h : ReachableVia N Call.changesController r) (o : Ctrl)
    (ho : r.outgoingSceneController = some o) : r.sceneController ≠ some o := by
  induction h generalizing o with
  | construct => simp [Renderer.construct] at ho
  | call w c _ hP hstep ih =>
    rcases step_slots N w c _ _ _ hstep with ⟨x, rfl, hx, hout⟩ | ⟨x, t, rfl, hx, hout⟩ |
      ⟨_, hact, hout | hout⟩
    · rw [hx]
      rw [hout] at ho
      simp only [Call.changesController] at hP
      intro hxo
      rw [Option.some.injEq] at hxo
      exact hP (hxo ▸ ho)
    · rw [hx]
      rw [hout] at ho
      simp only [Call.changesController] at hP
      intro hxo
      rw [Option.some.injEq] at hxo
      exact hP (hxo ▸ ho)
    · rw [hact]
      exact ih o (hout ▸ ho)
    · rw [hout] at ho
      simp at ho

/-- Witness for C4 (amended): timed changes to `1` and then to `2` leave `1`
outgoing and `2` active. -/
theorem outgoing_differs_from_active_witness :
    ReachableVia 100 Call.changesController transitioningOneTwo ∧
    transitioningOneTwo.outgoingSceneController = some 1 ∧
    transitioningOneTwo.sceneController ≠ some 1 :=
  ⟨reachableVia_two_timed _ 1 2 (by simp [Call.changesController, Renderer.construct])
      (by simp [Call.changesController]),
    rfl,
    outgoing_differs_from_active 100 transitioningOneTwo
      (reachableVia_two_timed _ 1 2 (by simp [Call.changesController, Renderer.construct])
        (by simp [Call.changesController])) 1 rfl⟩

/-- Counterexample for C4 as stated: two timed changes to the same controller `1`
reach a state in which `1` is both the outgoing and the active controller. -/
theorem outgoing_equals_active_reachable :
    Reachable 100 selfOutgoing ∧
    selfOutgoing.outgoingSceneController = some 1 ∧
    selfOutgoing.sceneController = some 1 :=
  ⟨reachableVia_two_timed _ 1 1 trivial trivial, rfl, rfl⟩

/-- C10. In every renderer state reachable from construction by successful calls
(a scene change succeeds only with a non-null argument), an outgoing controller
is set only if an active controller is set; hence `endFrame` never takes the
null dereference in its settle branch: it succeeds in every world. -/
theorem outgoing_implies_active (N : Nat) (r : Renderer) (h : Reachable N r) :
    (r.outgoingSceneController.isSome = true → r.sceneController.isSome = true) ∧
    ∀ w : World, (endFrame w r).isSome = true := by
  have hinv : r.outgoingSceneController.isSome = true → r.sceneController.isSome = true := by
    unfold Reachable at h
    induction h with
    | construct => simp [Renderer.construct]
    | call w c _ _ hstep ih =>
      rcases step_slots N w c _ _ _ hstep with ⟨x, _, hx, _⟩ | ⟨x, t, _, hx, _⟩ |
        ⟨_, hact, hout | hout⟩
      · simp [hx]
      · simp [hx]
      · rw [hact, hout]; exact ih
      · simp [hout]
  refine ⟨hinv, fun w => ?_⟩
  unfold endFrame
  cases ho : r.outgoingSceneController with
  | none => simp
  | some o =>
    have := hinv (by simp [ho])
    cases hc : r.sceneController with
    | none => simp [hc] at this
    | some c => simp only []; split <;> simp

/-- Witness for C10: the state with `1` outgoing and `2` active is reachable, has an
active controller and its `endFrame` succeeds. -/
theorem outgoing_implies_active_witness :
    Reachable 100 transitioningOneTwo ∧
    (transitioningOneTwo.outgoingSceneController.isSome = true →
      transitioningOneTwo.sceneController.isSome = true) ∧
    ∀ w : World, (endFrame w transitioningOneTwo).isSome = true :=
  ⟨reachableVia_two_timed _ 1 2 trivial trivial,
    outgoing_implies_active 100 transitioningOneTwo
      (reachableVia_two_timed _ 1 2 trivial trivial)⟩

/-! ## One frame -/

theorem renderEye_draws_without_scene (w : World) (eye : Nat) (r : Renderer)
    (h : r.sceneController = none) :
    (renderEye w eye r).2.filter Event.isSceneDraw = [] ∧
    (renderEye w eye r).2.filter Event.isDraw =
      if w.reticle = true then [Event.reticleRenderEye eye] else [] := by
  unfold renderEye renderEyeScenes
  rw [h]
  cases w.delegate <;> cases w.reticle <;> simp [Event.isSceneDraw, Event.isDraw]

theorem renderEye_draws_one_scene (w : World) (eye : Nat) (r : Renderer) (c : Ctrl)
    (h : r.sceneController = some c) (hout : r.outgoingSceneController = none) :
    (renderEye w eye r).2.filter Event.isSceneDraw =
      [Event.renderBackground c, Event.render c] := by
  unfold renderEye renderEyeScenes
  rw [h, hout]
  cases w.delegate <;> cases w.reticle <;> simp [Event.isSceneDraw]

/-- C8 (amended). One frame `prepareFrame → renderEye → endFrame` made while no
outgoing controller is set always succeeds. When no scene controller is set, the
frame makes no render call on any scene, and the only render call handed the
driver is the reticle's `renderEye`, made exactly when the input presenter has a
reticle. When a scene controller is set, that scene's `renderBackground` is
called exactly once, then its `render` exactly once, and no other scene render
call is made. -/
theorem one_frame_draw_calls (N : Nat) (w1 w2 w3 : World) (frame : Int) (eye : Nat)
    (r : Renderer) (hout : r.outgoingSceneController = none) :
    ∃ r3 evs,
      run N [(w1, Call.prepareFrame frame), (w2, Call.renderEye eye), (w3, Call.endFrame)] r
        = some (r3, evs) ∧
      (r.sceneController = none →
        evs.filter Event.isSceneDraw = [] ∧
        evs.filter Event.isDraw =
          if w2.reticle = true then [Event.reticleRenderEye eye] else []) ∧
      (∀ c, r.sceneController = some c →
        evs.filter Event.isSceneDraw = [Event.renderBackground c, Event.render c]) := by
  have hc := prepareFrame_controllers N w1 frame r
  have hout1 : (prepareFrame N w1 frame r).1.outgoingSceneController = none := hc.2.trans hout
  have hend : step N w3 Call.endFrame (prepareFrame N w1 frame r).1 =
      some ((prepareFrame N w1 frame r).1, [Event.notifyFrameEnd, Event.commitAll]) := by
    simp [step, endFrame, hout1]
  have hrun : run N
      [(w1, Call.prepareFrame frame), (w2, Call.renderEye eye), (w3, Call.endFrame)] r =
      some ((prepareFrame N w1 frame r).1,
        (prepareFrame N w1 frame r).2 ++
          ((renderEye w2 eye (prepareFrame N w1 frame r).1).2 ++
            ([Event.notifyFrameEnd, Event.commitAll] ++ []))) :=
    run_cons N w1 (Call.prepareFrame frame) _ r _ _ _ _ rfl
      (run_cons N w2 (Call.renderEye eye) _ (prepareFrame N w1 frame r).1 _ _ _ _ rfl
        (run_cons N w3 Call.endFrame [] _ _ _ _ [] hend rfl))
  refine ⟨_, _, hrun, ?_, ?_⟩
  · intro hnone
    have h2 := renderEye_draws_without_scene w2 eye (prepareFrame N w1 frame r).1
      (hc.1.trans hnone)
    simp only [List.filter_append, prepareFrame_no_sceneDraw, prepareFrame_no_draw, h2.1, h2.2]
    constructor
    · simp [Event.isSceneDraw]
    · split <;> simp [Event.isDraw]
  · intro c hsome
    have h2 := renderEye_draws_one_scene w2 eye (prepareFrame N w1 frame r).1 c
      (hc.1.trans hsome) hout1
    simp only [List.filter_append, prepareFrame_no_sceneDraw, h2]
    simp [Event.isSceneDraw]

/-- Witness for C8 (amended): one frame of a renderer with controller `1` active,
and one frame of a freshly constructed renderer without reticle. -/
theorem one_frame_draw_calls_witness :
    (∃ r3 evs,
      run 100 [(idleWorld, Call.prepareFrame 1), (idleWorld, Call.renderEye 0),
        (idleWorld, Call.endFrame)] steadyOne = some (r3, evs) ∧
      evs.filter Event.isSceneDraw = [Event.renderBackground 1, Event.render 1]) ∧
    (∃ r3 evs,
      run 100 [(idleWorld, Call.prepareFrame 1), (idleWorld, Call.renderEye 0),
        (idleWorld, Call.endFrame)] (Renderer.construct 100) = some (r3, evs) ∧
      evs.filter Event.isSceneDraw = [] ∧ evs.filter Event.isDraw = []) := by
  refine ⟨?_, ?_⟩
  · obtain ⟨r3, evs, h1, _, h3⟩ :=
      one_frame_draw_calls 100 idleWorld idleWorld idleWorld 1 0 steadyOne rfl
    exact ⟨r3, evs, h1, h3 1 rfl⟩
  · obtain ⟨r3, evs, h1, h2, _⟩ :=
      one_frame_draw_calls 100 idleWorld idleWorld idleWorld 1 0 (Renderer.construct 100) rfl
    exact ⟨r3, evs, h1, (h2 rfl).1, (h2 rfl).2⟩

/-- Counterexample for C8 as stated: one frame of a freshly constructed renderer (no
scene controller set) whose input presenter has a reticle hands the driver one
render call, the reticle's `renderEye`. -/
theorem one_frame_without_scene_draws_reticle :
    run 100 [(reticleWorld, Call.prepareFrame 1), (reticleWorld, Call.renderEye 0),
        (reticleWorld, Call.endFrame)] (Renderer.construct 100) =
      some ({ Renderer.construct 100 with rendererInitialized := true, frame := 1 },
        [Event.beginImplicitAnimation, Event.transactionUpdate, Event.notifyFrameStart,
         Event.onFrame, Event.reticleRenderEye 0, Event.notifyFrameEnd, Event.commitAll]) ∧
    [Event.beginImplicitAnimation, Event.transactionUpdate, Event.notifyFrameStart,
      Event.onFrame, Event.reticleRenderEye 0, Event.notifyFrameEnd,
      Event.commitAll].filter Event.isDraw = [Event.reticleRenderEye 0] :=
  ⟨rfl, rfl⟩

/-! ## Scene: proofs -/

theorem foldl_getSortKeys (nodes : List VRONode) (acc : List VROSortKey) :
    nodes.foldl (fun keys n => n.getSortKeys keys) acc
      = acc ++ (nodes.map VRONode.sortKeys).flatten := by
  induction nodes generalizing acc with
  | nil => simp
  | cons n nodes ih =>
    rw [List.foldl_cons, ih]
    simp [VRONode.getSortKeys]

/-- The key list left by `updateSortKeys` is the concatenation, in root-node
order, of the keys each node contributes; it is not reordered. -/
theorem updateSortKeys_keys (s : VROScene) :
    s.updateSortKeys.keys = (s.nodes.map VRONode.sortKeys).flatten := by
  simp [VROScene.updateSortKeys, foldl_getSortKeys]

/-- C5 at the failing input: for three root nodes contributing keys with shader
identities 1, 2, 1, `updateSortKeys` leaves the keys in that order, which is not
grouped by shader identity. -/
theorem updateSortKeys_not_grouped :
    interleavedScene.updateSortKeys.keys.map VROSortKey.shader = [1, 2, 1] ∧
    ¬ GroupedByShader interleavedScene.updateSortKeys.keys := by
  refine ⟨rfl, fun h => ?_⟩
  have := h 0 1 2 (by decide) (by decide) (by decide) (by decide) (by decide) rfl
  revert this
  decide

/-- The calls of the first iteration of the `render2` loop. -/
theorem render2Iterations_cons (g : Nat → Bool) (b : Nat) (key : VROSortKey)
    (rest : List VROSortKey) :
    render2Iterations g b (key :: rest) =
      (if key.shader ≠ b then
        (if g key.node then [SceneEvent.bindShader key.node key.elementIndex] else [])
          ++ [SceneEvent.render2 key.node key.elementIndex]
       else [SceneEvent.render2 key.node key.elementIndex])
      :: render2Iterations g key.shader rest := by
  rw [render2Iterations]
  split
  · rfl
  · next h =>
    have hb : b = key.shader := by
      by_contra hne
      exact h (fun heq => hne heq.symm)
    rw [hb]

theorem render2Iterations_length (g : Nat → Bool) (b : Nat) (keys : List VROSortKey) :
    (render2Iterations g b keys).length = keys.length := by
  induction keys generalizing b with
  | nil => simp [render2Iterations]
  | cons key rest ih => simp [render2Iterations_cons, ih]

theorem render2Iterations_drawn (g : Nat → Bool) (b : Nat) (keys : List VROSortKey) :
    (render2Iterations g b keys).flatten.filterMap SceneEvent.drawn =
      keys.map (fun key => (key.node, key.elementIndex)) := by
  induction keys generalizing b with
  | nil => simp [render2Iterations]
  | cons key rest ih =>
    rw [render2Iterations_cons, List.flatten_cons, List.filterMap_append, ih]
    split <;> cases g key.node <;> simp [SceneEvent.drawn]

theorem render2Iterations_shape (g : Nat → Bool) (b : Nat) (keys : List VROSortKey)
    (i : Nat) (seg : List SceneEvent) (key : VROSortKey)
    (hseg : (render2Iterations g b keys)[i]? = some seg) (hkey : keys[i]? = some key) :
    seg = [SceneEvent.render2 key.node key.elementIndex] ∨
    seg = [SceneEvent.bindShader key.node key.elementIndex,
           SceneEvent.render2 key.node key.elementIndex] := by
  induction keys generalizing b i with
  | nil => simp at hkey
  | cons k rest ih =>
    rw [render2Iterations_cons] at hseg
    cases i with
    | zero =>
      simp only [List.getElem?_cons_zero, Option.some.injEq] at hseg hkey
      subst hkey
      rw [← hseg]
      split <;> cases g k.node <;> simp
    | succ j =>
      simp only [List.getElem?_cons_succ] at hseg hkey
      exact ih k.shader j hseg hkey

theorem render2Iterations_head_bind (g : Nat → Bool) (b : Nat) (keys : List VROSortKey)
    (seg : List SceneEvent) (key : VROSortKey)
    (hseg : (render2Iterations g b keys)[0]? = some seg) (hkey : keys[0]? = some key)
    (hbind : ∃ e ∈ seg, e.isBind = true) : key.shader ≠ b := by
  cases keys with
  | nil => simp at hkey
  | cons k rest =>
    rw [render2Iterations_cons] at hseg
    simp only [List.getElem?_cons_zero, Option.some.injEq] at hseg hkey
    subst hkey
    by_cases hne : k.shader ≠ b
    · exact hne
    · rw [if_neg hne] at hseg
      obtain ⟨e, he, hb⟩ := hbind
      rw [← hseg] at he
      simp only [List.mem_singleton] at he
      rw [he] at hb
      simp [SceneEvent.isBind] at hb

theorem render2Iterations_bind (g : Nat → Bool) (b : Nat) (keys : List VROSortKey)
    (i : Nat) (seg : List SceneEvent) (key prev : VROSortKey)
    (hseg : (render2Iterations g b keys)[i + 1]? = some seg)
    (hkey : keys[i + 1]? = some key) (hprev : keys[i]? = some prev)
    (hbind : ∃ e ∈ seg, e.isBind = true) : key.shader ≠ prev.shader := by
  induction keys generalizing b i with
  | nil => simp at hkey
  | cons k rest ih =>
    rw [render2Iterations_cons] at hseg
    simp only [List.getElem?_cons_succ] at hseg hkey
    cases i with
    | zero =>
      simp only [List.getElem?_cons_zero, Option.some.injEq] at hprev
      subst hprev
      exact render2Iterations_head_bind g k.shader rest seg key hseg hkey hbind
    | succ j =>
      simp only [List.getElem?_cons_succ] at hprev
      exact ih k.shader j hseg hkey hprev

/-- C9. For every key list, `VROScene::render2` draws each key's element exactly
once, in list order: the loop runs one iteration per key, and iteration `i`
consists of the draw of key `i`, preceded at most by one shader/material bind for
that key. For a key at a position `i + 1 > 0` the bind is made only if the key's
shader identity differs from that of the key at position `i`. -/
theorem render2_draws_in_order_binds_on_change (hasGeometry : Nat → Bool) (s : VROScene) :
    (s.render2 hasGeometry).filterMap SceneEvent.drawn =
      s.keys.map (fun key => (key.node, key.elementIndex)) ∧
    (render2Iterations hasGeometry 0 s.keys).length = s.keys.length ∧
    (∀ (i : Nat) (seg : List SceneEvent) (key : VROSortKey),
      (render2Iterations hasGeometry 0 s.keys)[i]? = some seg → s.keys[i]? = some key →
      seg = [SceneEvent.render2 key.node key.elementIndex] ∨
      seg = [SceneEvent.bindShader key.node key.elementIndex,
             SceneEvent.render2 key.node key.elementIndex]) ∧
    (∀ (i : Nat) (seg : List SceneEvent) (key prev : VROSortKey),
      (render2Iterations hasGeometry 0 s.keys)[i + 1]? = some seg →
      s.keys[i + 1]? = some key → s.keys[i]? = some prev →
      (∃ e ∈ seg, e.isBind = true) → key.shader ≠ prev.shader) :=
  ⟨render2Iterations_drawn hasGeometry 0 s.keys,
    render2Iterations_length hasGeometry 0 s.keys,
    fun i seg key => render2Iterations_shape hasGeometry 0 s.keys i seg key,
    fun i seg key prev => render2Iterations_bind hasGeometry 0 s.keys i seg key prev⟩

/-- Witness for C9: with shader identities 1, 1, 2 the second iteration is the
draw alone, the third iteration binds, and the third key's shader identity
differs from the second's. -/
theorem render2_draws_in_order_binds_on_change_witness :
    (render2Iterations (fun _ => true) 0 batchedScene.keys)[1]? =
      some [SceneEvent.render2 0 1] ∧
    (render2Iterations (fun _ => true) 0 batchedScene.keys)[1 + 1]? =
      some [SceneEvent.bindShader 1 0, SceneEvent.render2 1 0] ∧
    ([SceneEvent.render2 0 1] = [SceneEvent.render2 0 1] ∨
      [SceneEvent.render2 0 1] = [SceneEvent.bindShader 0 1, SceneEvent.render2 0 1]) ∧
    (2 : Nat) ≠ 1 :=
  ⟨rfl, rfl,
    (render2_draws_in_order_binds_on_change (fun _ => true) batchedScene).2.2.1 1
      [SceneEvent.render2 0 1] { node := 0, elementIndex := 1, shader := 1 } rfl rfl,
    (render2_draws_in_order_binds_on_change (fun _ => true) batchedScene).2.2.2 1
      [SceneEvent.bindShader 1 0, SceneEvent.render2 1 0]
      { node := 1, elementIndex := 0, shader := 2 }
      { node := 0, elementIndex := 1, shader := 1 }
      rfl rfl rfl ⟨SceneEvent.bindShader 1 0, by simp, rfl⟩⟩

/-! ## Camera: proofs -/

theorem orbitCameraPosition_sub_focal (H : VROVector3f → VROVector3f)
    (povPosition cameraPosition orbitFocalPoint : VROVector3f) :
    orbitCameraPosition H povPosition cameraPosition orbitFocalPoint
        - (povPosition + orbitFocalPoint)
      = -(‖(povPosition + orbitFocalPoint) - (povPosition + cameraPosition)‖ •
          H (VROVector3f.normalize
            ((povPosition + orbitFocalPoint) - (povPosition + cameraPosition)))) := by
  simp only [orbitCameraPosition, VROVector3f.scale, VROVector3f.magnitude]
  abel

/-- The length-preservation hypothesis of C6 is needed: for the map sending
every vector to `0` (a matrix that is not a rotation) the camera sits on the focal
point, at distance `0` rather than `1`. -/
theorem orbit_camera_zero_matrix :
    VROVector3f.magnitude
        (orbitCameraPosition (fun _ => 0) 0 0 (EuclideanSpace.single 0 1)
          - (0 + EuclideanSpace.single 0 1)) = 0 ∧
    VROVector3f.magnitude
      ((0 + EuclideanSpace.single (0 : Fin 3) (1 : ℝ)) - (0 + 0)) = 1 := by
  constructor
  · rw [orbitCameraPosition_sub_focal]
    simp [VROVector3f.magnitude]
  · simp [VROVector3f.magnitude]

end VRO
